import Mathlib

/-!
Verification development for the n8n JS task runner
(`packages/@n8n/task-runner/src/js-task-runner/js-task-runner.ts`).

The engine's data model and operations are shallowly embedded: JavaScript
values thrown or returned by sandboxed user code are modelled by `JSValue`,
the outcome of one evaluation of the user's code inside the sandbox by
`Except JSValue JSValue` (thrown value or returned value), and the engine's
surrounding control flow (`runForAllItems`, `runForEachItem`,
`toExecutionErrorIfNeeded`, `parseModuleAllowList`, the `executeTask`
dispatch, the `createDataProxy` environment-state default and the
`getNativeVariables` capability surface) is translated from the source.
Helpers that the source imports from sibling modules not present here
(`isErrorLike`, `ExecutionError`, `makeSerializable`, the two output
validators) are modelled from the specification, as marked on each.
-/

namespace JsRunner

/-- A JavaScript value as seen at the engine boundary: the values user code
can return or throw. `errObj` is a native `Error` instance carrying a
message and an optional stack. -/
inductive JSValue where
  | undef
  | null
  | bool (b : Bool)
  | num (n : Int)
  | str (s : String)
  | arr (elems : List JSValue)
  | obj (fields : List (String × JSValue))
  | errObj (message : String) (stack : Option String)
deriving Repr

/-- Property lookup on a modelled JS object (first binding wins, as for a
JS object literal with distinct keys). -/
def getField (fields : List (String × JSValue)) (key : String) : Option JSValue :=
  (fields.find? (fun kv => kv.1 = key)).map Prod.snd

/-- Escapes one character for a JSON string literal, as JSON.stringify does. -/
def jsonEscapeChar (c : Char) : String :=
  if c = '"' then "\\\""
  else if c = '\\' then "\\\\"
  else if c = '\n' then "\\n"
  else if c = '\r' then "\\r"
  else if c = '\t' then "\\t"
  else String.singleton c

/-- Wraps a string in double quotes with JSON escaping, as JSON.stringify
does for string values. -/
def jsonQuote (s : String) : String :=
  "\"" ++ String.join (s.toList.map jsonEscapeChar) ++ "\""

mutual

/-- Model of JavaScript `JSON.stringify` on `JSValue`: `undefined` has no
JSON serialization (the call returns `undefined`, modelled as `none`);
inside arrays an unserializable element becomes `null`; inside objects an
unserializable property is dropped; an `Error` instance has no enumerable
own properties and serializes to the empty object. -/
def jsonStringify : JSValue → Option String
  | JSValue.undef => none
  | JSValue.null => some "null"
  | JSValue.bool b => some (if b then "true" else "false")
  | JSValue.num n => some (toString n)
  | JSValue.str s => some (jsonQuote s)
  | JSValue.arr xs => some ("[" ++ String.intercalate "," (jsonStringifyElems xs) ++ "]")
  | JSValue.obj fs => some ("\x7b" ++ String.intercalate "," (jsonStringifyFields fs) ++ "\x7d")
  | JSValue.errObj _ _ => some "\x7b\x7d"

/-- Serializes the elements of a JSON array; `undefined` elements render as
`null`, as JSON.stringify does. -/
def jsonStringifyElems : List JSValue → List String
  | [] => []
  | v :: vs => ((jsonStringify v).getD "null") :: jsonStringifyElems vs

/-- Serializes the properties of a JSON object; properties whose value has
no serialization are omitted, as JSON.stringify does. -/
def jsonStringifyFields : List (String × JSValue) → List String
  | [] => []
  | (k, v) :: fs =>
    match jsonStringify v with
    | none => jsonStringifyFields fs
    | some s => (jsonQuote k ++ ":" ++ s) :: jsonStringifyFields fs

end

/-- True exactly when the value is a native `Error` instance
(`error instanceof Error` in the source). -/
def isNativeError : JSValue → Bool
  | JSValue.errObj _ _ => true
  | _ => false

/-- Modelled from the spec: `isErrorLike` from `./errors/error-like` (not
under src/) recognises "an object that merely looks like an error (has a
message-bearing shape without being a native error instance)": a non-null
object whose `message` property is a string. -/
def isErrorLike : JSValue → Bool
  | JSValue.obj fields =>
    match getField fields "message" with
    | some (JSValue.str _) => true
    | _ => false
  | _ => false

/-- The canonical cross-boundary error shape: a message that is always a
string, and an optional stack trace. -/
structure NormalizedError where
  message : String
  stack : Option String
deriving Repr, DecidableEq

/-- Modelled from the spec: `makeSerializable` from
`./errors/serializable-error` (not under src/) normalises a native error
"by copying message/stack and marking it serializable". -/
def makeSerializable (message : String) (stack : Option String) : NormalizedError :=
  { message := message, stack := stack }

/-- Modelled from the spec: `ExecutionError` from `./errors/execution-error`
(not under src/) is "a dedicated execution error carrying that message".
As with a JS `Error` constructed without a message, an absent message
yields the empty string, so the message field is always a string. -/
def mkExecutionError (message : Option String) : NormalizedError :=
  { message := message.getD "", stack := none }

/-- The `message` property of a modelled JS object when it is a string,
as read by the `ExecutionError` constructor from an error-like value. -/
def messageOf (v : JSValue) : Option String :=
  match v with
  | JSValue.obj fields =>
    match getField fields "message" with
    | some (JSValue.str s) => some s
    | _ => none
  | _ => none

/-- Embeds `JsTaskRunner.toExecutionErrorIfNeeded`: a native `Error` is made
serializable; an error-like object becomes an `ExecutionError` carrying its
message; anything else becomes an `ExecutionError` whose message is
`JSON.stringify` of the thrown value. -/
def toExecutionErrorIfNeeded (error : JSValue) : NormalizedError :=
  match error with
  | JSValue.errObj message stack => makeSerializable message stack
  | _ =>
    if isErrorLike error then
      mkExecutionError (messageOf error)
    else
      mkExecutionError (jsonStringify error)

/-- One output unit of a task (`INodeExecutionData` as produced by this
engine): a JSON-like payload, an optional binary-attachment payload, and an
optional back-reference to the originating item's position
(`pairedItem.item`). -/
structure ExecutionRecord where
  json : JSValue
  binary : Option JSValue
  pairedItem : Option Nat
deriving Repr

/-- Reads a returned value as one record: a JSON-like payload with an
optional binary-attachment payload, modelled as an object carrying a `json`
property and optionally a `binary` property. -/
def asRecord (v : JSValue) : Option ExecutionRecord :=
  match v with
  | JSValue.obj fields =>
    match getField fields "json" with
    | some payload =>
      some { json := payload, binary := getField fields "binary", pairedItem := none }
    | none => none
  | _ => none

/-- Reads the elements of a returned sequence as records, failing if any
element is not a record. -/
def asRecordList : List JSValue → Option (List ExecutionRecord)
  | [] => some []
  | v :: vs =>
    match asRecord v with
    | none => none
    | some r =>
      match asRecordList vs with
      | none => none
      | some rs => some (r :: rs)

/-- Modelled from the spec: `validateRunForAllItemsOutput` from
`./result-validation` (not under src/). The all-items rule: "the evaluated
result must be an ordered sequence of records, each record a JSON-like
payload optionally paired with a binary-attachment payload; anything else
(a bare scalar, a single unwrapped object, a non-sequence) fails validation
with a shape-mismatch error naming the expected shape". The error it throws
is a native error value, caught and normalized by the engine. -/
def validateRunForAllItemsOutput (result : JSValue) : Except JSValue (List ExecutionRecord) :=
  match result with
  | JSValue.arr elems =>
    match asRecordList elems with
    | some records => Except.ok records
    | none =>
      Except.error (JSValue.errObj
        "shape mismatch: expected an ordered sequence of records" none)
  | _ =>
    Except.error (JSValue.errObj
      "shape mismatch: expected an ordered sequence of records" none)

/-- Modelled from the spec: `validateRunForEachItemOutput` from
`./result-validation` (not under src/). The per-item rule: "the evaluated
result must be exactly one record (JSON-like payload, optional
binary-attachment payload); if the result is an ordered sequence, that is
itself a shape-mismatch (per-item mode forbids returning multiple records
from one item), reported with the offending item's index for diagnostics".
An `undefined` result validates to nothing, which the engine then skips. -/
def validateRunForEachItemOutput (result : JSValue) (index : Nat) :
    Except JSValue (Option ExecutionRecord) :=
  match result with
  | JSValue.undef => Except.ok none
  | JSValue.arr _ =>
    Except.error (JSValue.errObj
      ("shape mismatch: expected a single record, got a sequence, at item " ++ toString index)
      none)
  | v =>
    match asRecord v with
    | some r => Except.ok (some r)
    | none =>
      Except.error (JSValue.errObj
        ("shape mismatch: expected a single record, at item " ++ toString index) none)

/-- The error record emitted under continue-on-failure in all-items mode:
payload is an object with an `error` property holding the normalized
message, with no position back-reference
(`return [{ json: { error: error.message } }]` in the source). -/
def allItemsErrorRecord (err : NormalizedError) : ExecutionRecord :=
  { json := JSValue.obj [("error", JSValue.str err.message)],
    binary := none, pairedItem := none }

/-- The catch branch of `runForAllItems`: normalize the thrown value; under
continue-on-failure return a single error record, otherwise rethrow the
normalized error. -/
def runForAllItemsCatch (continueOnFail : Bool) (thrown : JSValue) :
    Except NormalizedError (List ExecutionRecord) :=
  let error := toExecutionErrorIfNeeded thrown
  if continueOnFail then
    Except.ok [allItemsErrorRecord error]
  else
    Except.error error

/-- Embeds `JsTaskRunner.runForAllItems`. The single evaluation of the user
code inside its sandbox is abstracted by its outcome `evalResult` (thrown
value or returned value); the input items are bound into the sandbox but do
not otherwise affect the engine's control flow, which is: a `null` result
yields the empty output, any other result goes through the all-items
validator, and anything thrown by evaluation or validation is caught and
handled by the continue-on-failure branch. -/
def runForAllItems (continueOnFail : Bool) (inputItems : List JSValue)
    (evalResult : Except JSValue JSValue) : Except NormalizedError (List ExecutionRecord) :=
  let _ := inputItems
  match evalResult with
  | Except.error thrown => runForAllItemsCatch continueOnFail thrown
  | Except.ok JSValue.null => Except.ok []
  | Except.ok result =>
    match validateRunForAllItemsOutput result with
    | Except.ok records => Except.ok records
    | Except.error thrown => runForAllItemsCatch continueOnFail thrown

/-- The outcome of the body of the per-item loop for one index, before the
catch branch is applied: emit a validated record, skip the item, or fail
with the thrown value. -/
inductive ItemStepOutcome where
  | emit (record : ExecutionRecord)
  | skip
  | fail (thrown : JSValue)
deriving Repr

/-- True exactly on the `fail` outcome. -/
def ItemStepOutcome.isFail : ItemStepOutcome → Bool
  | ItemStepOutcome.fail _ => true
  | _ => false

/-- The try-block body of `runForEachItem` for one item: a thrown evaluation
propagates as `fail`; a `null` result is skipped before validation; any
other result goes through the per-item validator, whose own thrown error is
also a `fail`, whose empty output is a skip, and whose record is emitted. -/
def runItemStep (evalResult : Except JSValue JSValue) (index : Nat) : ItemStepOutcome :=
  match evalResult with
  | Except.error thrown => ItemStepOutcome.fail thrown
  | Except.ok JSValue.null => ItemStepOutcome.skip
  | Except.ok result =>
    match validateRunForEachItemOutput result index with
    | Except.error thrown => ItemStepOutcome.fail thrown
    | Except.ok none => ItemStepOutcome.skip
    | Except.ok (some record) => ItemStepOutcome.emit record

/-- Attaches the originating item's position to a validated record, as the
push in the source does (`pairedItem: { item: index }`, `binary` kept only
when present). -/
def attachIndex (record : ExecutionRecord) (index : Nat) : ExecutionRecord :=
  { json := record.json, binary := record.binary, pairedItem := some index }

/-- The error record emitted under continue-on-failure in per-item mode:
payload is an object with an `error` property holding the normalized
message, with the originating index as position back-reference. -/
def eachItemErrorRecord (err : NormalizedError) (index : Nat) : ExecutionRecord :=
  { json := JSValue.obj [("error", JSValue.str err.message)],
    binary := none, pairedItem := some index }

/-- The per-item loop of `runForEachItem`, starting at item `index` with
`count` items left. A `fail` outcome is normalized; without
continue-on-failure it aborts the whole run (discarding every record),
otherwise it contributes an error record and the loop continues. -/
def runForEachItemFrom (continueOnFail : Bool) (evalCode : Nat → Except JSValue JSValue) :
    Nat → Nat → Except NormalizedError (List ExecutionRecord)
  | _, 0 => Except.ok []
  | index, count + 1 =>
    match runItemStep (evalCode index) index with
    | ItemStepOutcome.skip =>
      runForEachItemFrom continueOnFail evalCode (index + 1) count
    | ItemStepOutcome.emit record =>
      Except.map (fun rest => attachIndex record index :: rest)
        (runForEachItemFrom continueOnFail evalCode (index + 1) count)
    | ItemStepOutcome.fail thrown =>
      let error := toExecutionErrorIfNeeded thrown
      if continueOnFail then
        Except.map (fun rest => eachItemErrorRecord error index :: rest)
          (runForEachItemFrom continueOnFail evalCode (index + 1) count)
      else
        Except.error error

/-- Embeds `JsTaskRunner.runForEachItem`: iterates the input items strictly
in index order from 0; the evaluation of the user code in the sandbox built
for item `index` is abstracted by its outcome `evalCode index`. -/
def runForEachItem (continueOnFail : Bool) (inputItems : List JSValue)
    (evalCode : Nat → Except JSValue JSValue) : Except NormalizedError (List ExecutionRecord) :=
  runForEachItemFrom continueOnFail evalCode 0 inputItems.length

/-- Relates an output record of the per-item loop to the item index it was
produced from: the record is the step's validated record with that index
attached, or the continue-on-failure error record for that index; a skipped
index originates no record. -/
def recordOriginatesAt (evalCode : Nat → Except JSValue JSValue) (index : Nat)
    (record : ExecutionRecord) : Prop :=
  match runItemStep (evalCode index) index with
  | ItemStepOutcome.emit r => record = attachIndex r index
  | ItemStepOutcome.fail thrown =>
    record = eachItemErrorRecord (toExecutionErrorIfNeeded thrown) index
  | ItemStepOutcome.skip => False

/-- Whitespace as recognised by the trimming of allow-list entries. -/
def isTrimmedWhitespace (c : Char) : Bool :=
  c = ' ' || c = '\t' || c = '\n' || c = '\r'

/-- Model of JavaScript `String.prototype.trim`: strips leading and
trailing whitespace. -/
def jsTrim (s : String) : String :=
  String.mk (((s.toList.dropWhile isTrimmedWhitespace).reverse.dropWhile
    isTrimmedWhitespace).reverse)

/-- Splits a character list at every occurrence of the separator character;
the empty list yields one empty entry, as JavaScript `split` does on the
empty string. -/
def splitChars (sep : Char) : List Char → List (List Char)
  | [] => [[]]
  | c :: cs =>
    if c = sep then [] :: splitChars sep cs
    else
      match splitChars sep cs with
      | [] => [[c]]
      | entry :: entries => (c :: entry) :: entries

/-- Model of JavaScript `String.prototype.split` with a one-character
separator. -/
def jsSplit (s : String) (sep : Char) : List String :=
  (splitChars sep s.toList).map String.mk

/-- Embeds `parseModuleAllowList` from the `JsTaskRunner` constructor:
the wildcard string yields `none` ("permit all"); any other string yields
the set of entries obtained by splitting on commas and trimming each entry
of whitespace (`moduleList.split(',').map((x) => x.trim())`). -/
def parseModuleAllowList (moduleList : String) : Option (List String) :=
  if moduleList = "*" then none
  else some ((jsSplit moduleList ',').map jsTrim)

/-- The two allow-list configuration strings of the JS runner config, each
optional (`jsRunnerConfig.allowedBuiltInModules` and
`jsRunnerConfig.allowedExternalModules`). -/
structure JsRunnerConfig where
  allowedBuiltInModules : Option String
  allowedExternalModules : Option String
deriving Repr

/-- The options the constructor passes to `createRequireResolver`: each
allow-list parsed independently by `parseModuleAllowList`, from the
configured string or the empty string when absent. -/
structure RequireResolverOpts where
  allowedBuiltInModules : Option (List String)
  allowedExternalModules : Option (List String)
deriving Repr

/-- Embeds the constructor's call to `createRequireResolver`: both
allow-lists are parsed independently with `parseModuleAllowList`, the
missing configuration string defaulting to the empty string. -/
def mkRequireResolverOpts (config : JsRunnerConfig) : RequireResolverOpts :=
  { allowedBuiltInModules := parseModuleAllowList (config.allowedBuiltInModules.getD ""),
    allowedExternalModules := parseModuleAllowList (config.allowedExternalModules.getD "") }

/-- The environment-provider state handed to the data proxy: an environment
map, a flag blocking environment access, and a flag reporting whether the
host process object is available. -/
structure EnvProviderState where
  env : List (String × String)
  isEnvAccessBlocked : Bool
  isProcessAvailable : Bool
deriving Repr, DecidableEq

/-- Looks up one environment variable in an environment-provider state. -/
def EnvProviderState.lookupEnv (state : EnvProviderState) (key : String) : Option String :=
  (state.env.find? (fun kv => kv.1 = key)).map Prod.snd

/-- Embeds the `envProviderState` argument that `createDataProxy` passes to
the workflow data proxy: the bundle's state when present, and otherwise the
literal default `\x7b env: \x7b\x7d, isEnvAccessBlocked: false,
isProcessAvailable: true \x7d` from the source. -/
def createDataProxyEnvState (envProviderState : Option EnvProviderState) : EnvProviderState :=
  envProviderState.getD
    { env := [], isEnvAccessBlocked := false, isProcessAvailable := true }

/-- Embeds `JsTaskRunner.getNativeVariables` as the list of global names the
returned object binds into every sandbox context, in source order. -/
def getNativeVariables : List String :=
  ["Buffer", "Function", "eval",
   "setTimeout", "setInterval", "setImmediate",
   "clearTimeout", "clearInterval", "clearImmediate",
   "btoa", "atob",
   "TextDecoder", "TextDecoderStream", "TextEncoder", "TextEncoderStream",
   "FormData"]

/-- The capability set enumerated by the spec: timer
scheduling/cancellation primitives, a byte-buffer constructor, text
encode/decode constructors and their streaming variants, and a multipart
form-data constructor. This definition follows the spec's words, to be
compared with `getNativeVariables`, which follows the source. -/
def claimedCapabilitySet : List String :=
  ["setTimeout", "setInterval", "setImmediate",
   "clearTimeout", "clearInterval", "clearImmediate",
   "Buffer",
   "TextEncoder", "TextDecoder", "TextEncoderStream", "TextDecoderStream",
   "FormData"]

/-- The host primitives the source binds beyond the spec's enumerated set:
the code-evaluation primitives and the base64 converters. -/
def extraNativeVariables : List String :=
  ["Function", "eval", "btoa", "atob"]

/-- The two execution paths `executeTask` can dispatch to. -/
inductive ExecPath where
  | allItems
  | eachItem
deriving Repr, DecidableEq

/-- Embeds the dispatch in `JsTaskRunner.executeTask`: the all-items path
exactly when `settings.nodeMode === 'runOnceForAllItems'`, and the per-item
path for any other mode string. -/
def executeTaskPath (nodeMode : String) : ExecPath :=
  if nodeMode = "runOnceForAllItems" then ExecPath.allItems else ExecPath.eachItem

/-- The per-item loop propagates the normalized first failure when
continue-on-failure is unset: if the step at index `i` fails and no step at
an earlier in-range index fails, the whole loop returns exactly that
normalized error, discarding every record. -/
theorem runForEachItemFrom_failFast (evalCode : Nat → Except JSValue JSValue) (thrown : JSValue) :
    ∀ (count start i : Nat), start ≤ i → i < start + count →
      runItemStep (evalCode i) i = ItemStepOutcome.fail thrown →
      (∀ j, start ≤ j → j < i → (runItemStep (evalCode j) j).isFail = false) →
      runForEachItemFrom false evalCode start count
        = Except.error (toExecutionErrorIfNeeded thrown) := by
  intro count
  induction count with
  | zero => intro start i h1 h2 _ _; omega
  | succ n ih =>
    intro start i hle hlt hfail hpre
    rcases Nat.eq_or_lt_of_le hle with heq | hlt2
    · subst heq
      simp only [runForEachItemFrom, hfail]
      simp
    · have hnotfail := hpre start le_rfl hlt2
      simp only [runForEachItemFrom]
      cases hstep : runItemStep (evalCode start) start with
      | fail t => rw [hstep] at hnotfail; simp [ItemStepOutcome.isFail] at hnotfail
      | skip =>
        exact ih (start + 1) i hlt2 (by omega) hfail (fun j hj1 hj2 => hpre j (by omega) hj2)
      | emit r =>
        rw [ih (start + 1) i hlt2 (by omega) hfail (fun j hj1 hj2 => hpre j (by omega) hj2)]
        rfl

/-- Every record produced by the per-item loop originates at an in-range
item index that is recorded in its `pairedItem`, and the `pairedItem`
values appear in strictly increasing order. -/
theorem runForEachItemFrom_records (continueOnFail : Bool)
    (evalCode : Nat → Except JSValue JSValue) :
    ∀ (count start : Nat) (records : List ExecutionRecord),
      runForEachItemFrom continueOnFail evalCode start count = Except.ok records →
      (∀ r ∈ records, ∃ idx, start ≤ idx ∧ idx < start + count ∧
        r.pairedItem = some idx ∧ recordOriginatesAt evalCode idx r) ∧
      (records.filterMap (fun r => r.pairedItem)).Pairwise (· < ·) := by
  intro count
  induction count with
  | zero =>
    intro start records h
    simp only [runForEachItemFrom] at h
    cases h
    simp
  | succ n ih =>
    intro start records h
    simp only [runForEachItemFrom] at h
    cases hstep : runItemStep (evalCode start) start with
    | skip =>
      rw [hstep] at h
      obtain ⟨hmem, hpair⟩ := ih (start + 1) records h
      refine ⟨fun r hr => ?_, hpair⟩
      obtain ⟨idx, h1, h2, h3, h4⟩ := hmem r hr
      exact ⟨idx, by omega, by omega, h3, h4⟩
    | emit r0 =>
      rw [hstep] at h
      cases hrec : runForEachItemFrom continueOnFail evalCode (start + 1) n with
      | error e => rw [hrec] at h; simp [Except.map] at h
      | ok rest =>
        rw [hrec] at h
        simp only [Except.map] at h
        cases h
        obtain ⟨hmem, hpair⟩ := ih (start + 1) rest hrec
        constructor
        · intro r hr
          rcases List.mem_cons.mp hr with hhead | htail
          · subst hhead
            refine ⟨start, le_rfl, by omega, rfl, ?_⟩
            unfold recordOriginatesAt
            rw [hstep]
          · obtain ⟨idx, h1, h2, h3, h4⟩ := hmem r htail
            exact ⟨idx, by omega, by omega, h3, h4⟩
        · rw [List.filterMap_cons]
          have hp : (attachIndex r0 start).pairedItem = some start := rfl
          rw [hp]
          refine List.Pairwise.cons ?_ hpair
          intro b hb
          obtain ⟨r, hrmem, hrpair⟩ := List.mem_filterMap.mp hb
          obtain ⟨idx, h1, _, h3, _⟩ := hmem r hrmem
          rw [h3] at hrpair
          cases hrpair
          omega
    | fail t =>
      rw [hstep] at h
      by_cases hc : continueOnFail = true
      · subst hc
        simp only [if_true] at h
        cases hrec : runForEachItemFrom true evalCode (start + 1) n with
        | error e => rw [hrec] at h; simp [Except.map] at h
        | ok rest =>
          rw [hrec] at h
          simp only [Except.map] at h
          cases h
          obtain ⟨hmem, hpair⟩ := ih (start + 1) rest hrec
          constructor
          · intro r hr
            rcases List.mem_cons.mp hr with hhead | htail
            · subst hhead
              refine ⟨start, le_rfl, by omega, rfl, ?_⟩
              unfold recordOriginatesAt
              rw [hstep]
            · obtain ⟨idx, h1, h2, h3, h4⟩ := hmem r htail
              exact ⟨idx, by omega, by omega, h3, h4⟩
          · rw [List.filterMap_cons]
            have hp : (eachItemErrorRecord (toExecutionErrorIfNeeded t) start).pairedItem
                = some start := rfl
            rw [hp]
            refine List.Pairwise.cons ?_ hpair
            intro b hb
            obtain ⟨r, hrmem, hrpair⟩ := List.mem_filterMap.mp hb
            obtain ⟨idx, h1, _, h3, _⟩ := hmem r hrmem
            rw [h3] at hrpair
            cases hrpair
            omega
      · rw [Bool.not_eq_true] at hc
        subst hc
        simp at h

/-- When every in-range item evaluates to `null`, the per-item loop emits
nothing. -/
theorem runForEachItemFrom_all_null (continueOnFail : Bool)
    (evalCode : Nat → Except JSValue JSValue) :
    ∀ (count start : Nat),
      (∀ i, start ≤ i → i < start + count → evalCode i = Except.ok JSValue.null) →
      runForEachItemFrom continueOnFail evalCode start count = Except.ok [] := by
  intro count
  induction count with
  | zero => intro start _; rfl
  | succ n ih =>
    intro start hnull
    have h0 : evalCode start = Except.ok JSValue.null := hnull start le_rfl (by omega)
    simp only [runForEachItemFrom, h0]
    exact ih (start + 1) (fun i h1 h2 => hnull i (by omega) (by omega))

/-- C1 counterexample: in the default environment-provider state that
`createDataProxy` substitutes when the bundle omits the field, the
environment-access-blocked flag is `false`, so the claim that "environment
access is blocked" fails on the code. -/
theorem createDataProxyEnvState_default_not_blocked :
    ¬ (createDataProxyEnvState none).isEnvAccessBlocked = true := by
  decide

/-- C1 (amended): when the data bundle omits the environment-provider
state, `createDataProxy` substitutes a default in which no environment
variable is accessible (the environment map is empty), the
environment-access-blocked flag is `false`, and the host-process-presence
flag is `true`; when the bundle carries a state, that state is passed
through unchanged. -/
theorem createDataProxyEnvState_default_spec :
    (∀ key, (createDataProxyEnvState none).lookupEnv key = none) ∧
    (createDataProxyEnvState none).isEnvAccessBlocked = false ∧
    (createDataProxyEnvState none).isProcessAvailable = true ∧
    (∀ state, createDataProxyEnvState (some state) = state) :=
  ⟨fun _ => rfl, rfl, rfl, fun _ => rfl⟩

/-- C2 counterexample: `eval` is bound into every sandbox by
`getNativeVariables` but is not in the claimed enumerated capability set
(timers, byte-buffer constructor, text encode/decode constructors and
streaming variants, multipart form-data constructor), so the merged
capability surface is not exactly that fixed set. -/
theorem getNativeVariables_beyond_claimed_set :
    ("eval" ∈ getNativeVariables) ∧ ("eval" ∉ claimedCapabilitySet) := by
  decide

/-- C2 (amended): the capability surface merged into every sandbox context
by `getNativeVariables` is, as a set, exactly the claimed enumerated set
plus four further host primitives: the code-evaluation primitives
`Function` and `eval` and the base64 converters `btoa` and `atob`. -/
theorem getNativeVariables_eq_claimed_plus_extras :
    List.Perm getNativeVariables (claimedCapabilitySet ++ extraNativeVariables) := by
  decide

/-- C3 counterexample: `undefined` is neither a native error nor
error-like, yet the normalized message for a thrown `undefined` is the
empty string, which is not the canonical JSON serialization of `undefined`
(JSON.stringify yields no string there at all). -/
theorem toExecutionErrorIfNeeded_undefined_not_serialized :
    isNativeError JSValue.undef = false ∧
    isErrorLike JSValue.undef = false ∧
    some (toExecutionErrorIfNeeded JSValue.undef).message ≠ jsonStringify JSValue.undef := by
  refine ⟨rfl, rfl, ?_⟩
  decide

/-- C3 (amended): for every thrown value, `toExecutionErrorIfNeeded`
yields an error carrying a message string, and when the value is neither a
native `Error` nor error-like and has a JSON serialization, the message
equals that serialization (a thrown string `oops` yields the quoted text,
a thrown number 42 the text 42); a thrown `undefined`, which has no JSON
serialization, yields the empty message instead. -/
theorem toExecutionErrorIfNeeded_serialization :
    (∀ v s, isNativeError v = false → isErrorLike v = false →
      jsonStringify v = some s → (toExecutionErrorIfNeeded v).message = s) ∧
    (toExecutionErrorIfNeeded JSValue.undef).message = "" := by
  constructor
  · intro v s hne hnel hjson
    cases v <;> simp_all [toExecutionErrorIfNeeded, isNativeError, mkExecutionError]
  · rfl

/-- C3 witness: the amended theorem applied to the thrown string `oops`,
whose normalized message is its quoted JSON text. -/
theorem toExecutionErrorIfNeeded_serialization_witness :
    isNativeError (JSValue.str "oops") = false ∧
    isErrorLike (JSValue.str "oops") = false ∧
    jsonStringify (JSValue.str "oops") = some "\"oops\"" ∧
    (toExecutionErrorIfNeeded (JSValue.str "oops")).message = "\"oops\"" :=
  ⟨rfl, rfl, rfl,
    toExecutionErrorIfNeeded_serialization.1 (JSValue.str "oops") "\"oops\"" rfl rfl rfl⟩

/-- C6: in all-items mode, when the evaluation of the user code throws,
`runForAllItems` returns exactly one record whose payload is an object
carrying the normalized message under `error` if continue-on-failure is
set, and otherwise propagates the normalized error with no output. -/
theorem runForAllItems_error_handling (inputItems : List JSValue) (thrown : JSValue) :
    runForAllItems true inputItems (Except.error thrown)
      = Except.ok [allItemsErrorRecord (toExecutionErrorIfNeeded thrown)] ∧
    runForAllItems false inputItems (Except.error thrown)
      = Except.error (toExecutionErrorIfNeeded thrown) :=
  ⟨rfl, rfl⟩

/-- C7: in all-items mode, a `null` evaluation result yields the empty
output sequence, for every input item sequence and either
continue-on-failure setting. -/
theorem runForAllItems_null_empty (continueOnFail : Bool) (inputItems : List JSValue) :
    runForAllItems continueOnFail inputItems (Except.ok JSValue.null) = Except.ok [] :=
  rfl

/-- C9: `parseModuleAllowList` yields "permit all" (`none`) exactly on the
wildcard `*`, and on any other string yields the entries obtained by
splitting on commas and trimming each entry of whitespace; the constructor
applies it to the built-in and external allow-list configuration strings
independently (each defaulting to the empty string when absent). -/
theorem parseModuleAllowList_spec :
    (∀ s, parseModuleAllowList s = none ↔ s = "*") ∧
    (∀ s, s ≠ "*" → parseModuleAllowList s = some ((jsSplit s ',').map jsTrim)) ∧
    (∀ config : JsRunnerConfig,
      (mkRequireResolverOpts config).allowedBuiltInModules
        = parseModuleAllowList (config.allowedBuiltInModules.getD "") ∧
      (mkRequireResolverOpts config).allowedExternalModules
        = parseModuleAllowList (config.allowedExternalModules.getD "")) := by
  refine ⟨fun s => ?_, fun s h => ?_, fun config => ⟨rfl, rfl⟩⟩
  · by_cases h : s = "*" <;> simp [parseModuleAllowList, h]
  · simp [parseModuleAllowList, h]

/-- C9 witness: the theorem applied to a concrete non-wildcard string with
spaces around the entries, which parses to the trimmed entry list. -/
theorem parseModuleAllowList_spec_witness :
    (" fs , crypto " ≠ "*") ∧
    parseModuleAllowList " fs , crypto " = some ["fs", "crypto"] :=
  ⟨by decide, by
    rw [parseModuleAllowList_spec.2.1 " fs , crypto " (by decide)]
    decide⟩

/-- C10: `executeTask` dispatches to the all-items path exactly when the
node mode string is `runOnceForAllItems`; every other mode string takes
the per-item path, so an unrecognised mode is executed per item rather
than rejected. -/
theorem executeTaskPath_dispatch :
    (∀ mode, executeTaskPath mode = ExecPath.allItems ↔ mode = "runOnceForAllItems") ∧
    (∀ mode, mode ≠ "runOnceForAllItems" → executeTaskPath mode = ExecPath.eachItem) := by
  constructor
  · intro mode
    by_cases h : mode = "runOnceForAllItems" <;> simp [executeTaskPath, h]
  · intro mode h
    simp [executeTaskPath, h]

/-- C10 witness: the theorem applied to an unrecognised mode string, which
is dispatched to the per-item path. -/
theorem executeTaskPath_dispatch_witness :
    ("someUnknownMode" ≠ "runOnceForAllItems") ∧
    executeTaskPath "someUnknownMode" = ExecPath.eachItem :=
  ⟨by decide, executeTaskPath_dispatch.2 "someUnknownMode" (by decide)⟩

/-- C4: in per-item mode with continue-on-failure unset, a failure at any
item index (the first failing index) makes `runForEachItem` propagate the
normalized error immediately: the task yields no output at all, and
records already produced for earlier indices are discarded. -/
theorem runForEachItem_failFast (inputItems : List JSValue)
    (evalCode : Nat → Except JSValue JSValue) (i : Nat) (thrown : JSValue)
    (hi : i < inputItems.length)
    (hfail : runItemStep (evalCode i) i = ItemStepOutcome.fail thrown)
    (hpre : ∀ j, j < i → (runItemStep (evalCode j) j).isFail = false) :
    runForEachItem false inputItems evalCode = Except.error (toExecutionErrorIfNeeded thrown) :=
  runForEachItemFrom_failFast evalCode thrown inputItems.length 0 i (Nat.zero_le i)
    (by omega) hfail (fun j _ hj => hpre j hj)

/-- C4 witness: three items where item 1 throws a native `boom` error and
the other items return valid records; without continue-on-failure, the task
fails with the propagated `boom` error and no partial output. -/
theorem runForEachItem_failFast_witness :
    (1 < ([JSValue.null, JSValue.null, JSValue.null] : List JSValue).length) ∧
    runForEachItem false [JSValue.null, JSValue.null, JSValue.null]
        (fun i => if i = 1 then Except.error (JSValue.errObj "boom" none)
          else Except.ok (JSValue.obj [("json", JSValue.obj [("ok", JSValue.bool true)])]))
      = Except.error { message := "boom", stack := none } :=
  ⟨by decide,
    runForEachItem_failFast _ _ 1 (JSValue.errObj "boom" none) (by decide) rfl (by decide)⟩

/-- C5: in per-item mode, every record returned by `runForEachItem` —
validated success record or continue-on-failure error record — carries a
`pairedItem` back-reference equal to the 0-based index of the input item
it originates from, and these back-references are strictly increasing
across the output, matching input order. -/
theorem runForEachItem_pairedItem_monotone (continueOnFail : Bool)
    (inputItems : List JSValue) (evalCode : Nat → Except JSValue JSValue)
    (records : List ExecutionRecord)
    (h : runForEachItem continueOnFail inputItems evalCode = Except.ok records) :
    (∀ r ∈ records, ∃ idx, idx < inputItems.length ∧ r.pairedItem = some idx ∧
      recordOriginatesAt evalCode idx r) ∧
    (records.filterMap (fun r => r.pairedItem)).Pairwise (· < ·) := by
  obtain ⟨hmem, hpair⟩ := runForEachItemFrom_records continueOnFail evalCode
    inputItems.length 0 records h
  refine ⟨fun r hr => ?_, hpair⟩
  obtain ⟨idx, h1, h2, h3, h4⟩ := hmem r hr
  exact ⟨idx, by omega, h3, h4⟩

/-- C5 witness: three items whose code returns a payload holding the item
index yield three records with payloads 0, 1, 2 and `pairedItem`
back-references 0, 1, 2 in that order; the theorem applied to this run. -/
theorem runForEachItem_pairedItem_monotone_witness :
    (runForEachItem true [JSValue.null, JSValue.null, JSValue.null]
        (fun i =>
          Except.ok (JSValue.obj [("json", JSValue.obj [("v", JSValue.num (Int.ofNat i))])]))
      = Except.ok
        [{ json := JSValue.obj [("v", JSValue.num 0)], binary := none, pairedItem := some 0 },
         { json := JSValue.obj [("v", JSValue.num 1)], binary := none, pairedItem := some 1 },
         { json := JSValue.obj [("v", JSValue.num 2)], binary := none, pairedItem := some 2 }]) ∧
    ((∀ r ∈
        [{ json := JSValue.obj [("v", JSValue.num 0)], binary := none, pairedItem := some 0 },
         { json := JSValue.obj [("v", JSValue.num 1)], binary := none, pairedItem := some 1 },
         ({ json := JSValue.obj [("v", JSValue.num 2)], binary := none,
            pairedItem := some 2 } : ExecutionRecord)],
        ∃ idx, idx < ([JSValue.null, JSValue.null, JSValue.null] : List JSValue).length ∧
          r.pairedItem = some idx ∧
          recordOriginatesAt
            (fun i =>
              Except.ok (JSValue.obj [("json", JSValue.obj [("v", JSValue.num (Int.ofNat i))])]))
            idx r) ∧
      (List.filterMap (fun r => r.pairedItem)
        [{ json := JSValue.obj [("v", JSValue.num 0)], binary := none, pairedItem := some 0 },
         { json := JSValue.obj [("v", JSValue.num 1)], binary := none, pairedItem := some 1 },
         ({ json := JSValue.obj [("v", JSValue.num 2)], binary := none,
            pairedItem := some 2 } : ExecutionRecord)]).Pairwise (· < ·)) :=
  ⟨rfl, runForEachItem_pairedItem_monotone true _ _ _ rfl⟩

/-- C8: in per-item mode a `null` evaluation result is skipped: the step
for that item emits no record and the loop proceeds to the next index; in
particular, when every item evaluates to `null`, the output is the empty
sequence rather than a list of null entries. -/
theorem runForEachItem_null_skip :
    (∀ index : Nat, runItemStep (Except.ok JSValue.null) index = ItemStepOutcome.skip) ∧
    (∀ (continueOnFail : Bool) (evalCode : Nat → Except JSValue JSValue) (start count : Nat),
      evalCode start = Except.ok JSValue.null →
      runForEachItemFrom continueOnFail evalCode start (count + 1)
        = runForEachItemFrom continueOnFail evalCode (start + 1) count) ∧
    (∀ (continueOnFail : Bool) (inputItems : List JSValue)
        (evalCode : Nat → Except JSValue JSValue),
      (∀ i, i < inputItems.length → evalCode i = Except.ok JSValue.null) →
      runForEachItem continueOnFail inputItems evalCode = Except.ok []) := by
  refine ⟨fun _ => rfl, fun continueOnFail evalCode start count h => ?_, ?_⟩
  · simp only [runForEachItemFrom, h]
    rfl
  · intro continueOnFail inputItems evalCode hnull
    exact runForEachItemFrom_all_null continueOnFail evalCode inputItems.length 0
      (fun i _ h2 => hnull i (by omega))

/-- C8 witness: the theorem applied to three input items all of whose
evaluations return `null`, yielding the empty output sequence. -/
theorem runForEachItem_null_skip_witness :
    (∀ i, i < ([JSValue.num 1, JSValue.num 2, JSValue.num 3] : List JSValue).length →
      (fun _ => Except.ok JSValue.null : Nat → Except JSValue JSValue) i
        = Except.ok JSValue.null) ∧
    runForEachItem false [JSValue.num 1, JSValue.num 2, JSValue.num 3]
      (fun _ => Except.ok JSValue.null) = Except.ok [] :=
  ⟨fun _ _ => rfl, runForEachItem_null_skip.2.2 false _ _ (fun _ _ => rfl)⟩

end JsRunner
